import Mathlib

/-!
Verification of the pseudo-random number generation interface declared in
`src/kernels/random.h`.  The header declares a 32-bit state struct and four
sampling functions; no function body is present in the repository, so the
bodies below are modelled from the specification, while the state type and
the declared call surface are transcribed from the header itself.
-/

namespace Advector

/-- The modulus 2^32 of the 32-bit state word (`unsigned int a` in the header). -/
def UINT32_MOD : Nat := 4294967296

/-- The generator state, transcribed from `random.h`:
`typedef struct random_state { unsigned int a; } random_state;` —
a single 32-bit word.  Arithmetic on the word is taken modulo 2^32. -/
structure random_state where
  a : Nat
  deriving DecidableEq, Repr

/-- Modelled from the spec: the state-update rule is missing from the source
(the header only declares the four functions); the spec leaves the update rule
to the implementer, suggesting "a linear congruential or xorshift step over
the 32-bit word".  We use the classic linear congruential step
`s ↦ (1664525*s + 1013904223) mod 2^32` (Hull–Dobell full-period parameters). -/
def next_state (r : random_state) : random_state :=
  ⟨(1664525 * r.a + 1013904223) % UINT32_MOD⟩

/-- Modelled from the spec: the body of `random` is missing from the source.
Per the spec it returns a sample uniformly distributed in a canonical unit
range; we fix and document the convention `[0,1)`: the advanced 32-bit state
word divided by 2^32.  Returns the sample and the mutated state. -/
def random (r : random_state) : ℚ × random_state :=
  (((next_state r).a : ℚ) / (UINT32_MOD : ℚ), next_state r)

/-- The error taxonomy from the spec: `InvalidRange` (low > high in
`random_in_range`) and `InvalidMagnitude` (negative magnitude in
`random_within_magnitude`). -/
inductive RandError
  | InvalidRange
  | InvalidMagnitude
  deriving DecidableEq, Repr

/-- Modelled from the spec: the body of `random_in_range` is missing from the
source.  Per the spec it returns a sample uniformly distributed over
`[low, high]`, failing fast with `InvalidRange` when `low > high` (the
documented policy here, rather than swapping the bounds); the sample is the
affine image `low + (high - low) * u` of one unit draw `u`. -/
def random_in_range (low high : ℚ) (r : random_state) :
    Except RandError (ℚ × random_state) :=
  if high < low then .error .InvalidRange
  else .ok (low + (high - low) * (random r).1, (random r).2)

/-- Modelled from the spec: the body of `random_within_magnitude` is missing
from the source.  Per the spec it returns a sample drawn uniformly from the
symmetric interval `[-magnitude, +magnitude]`, failing fast with
`InvalidMagnitude` on a negative magnitude; the sample is
`magnitude * (2*u - 1)` for one unit draw `u`. -/
def random_within_magnitude (magnitude : ℚ) (r : random_state) :
    Except RandError (ℚ × random_state) :=
  if magnitude < 0 then .error .InvalidMagnitude
  else .ok (magnitude * (2 * (random r).1 - 1), (random r).2)

/-- Sum of `n` successive unit draws, threading the state. -/
def draw_sum : Nat → random_state → ℚ × random_state
  | 0, r => (0, r)
  | n + 1, r =>
    ((random r).1 + (draw_sum n (random r).2).1, (draw_sum n (random r).2).2)

/-- Modelled from the spec: the body of `standard_normal` is missing from the
source.  Per the spec it derives a standard-normal sample from one or more
uniform draws via an implementation-chosen transform consuming only this
stream's state; we use the classic Irwin–Hall transform, the sum of twelve
unit draws minus six (mean 0, variance 1). -/
def standard_normal (r : random_state) : ℚ × random_state :=
  ((draw_sum 12 r).1 - 6, (draw_sum 12 r).2)

/-- One call to the four-function sampling interface, with its arguments. -/
inductive Call
  | withinMagnitude (magnitude : ℚ)
  | unitUniform
  | inRange (low high : ℚ)
  | stdNormal
  deriving DecidableEq

/-- Run one call on a stream: the observable outcome (sample or error signal)
together with the state after the call; an erroneous call fails fast and
leaves the state untouched. -/
def run_call : Call → random_state → Except RandError ℚ × random_state
  | .withinMagnitude m, r =>
    match random_within_magnitude m r with
    | .ok p => (.ok p.1, p.2)
    | .error e => (.error e, r)
  | .unitUniform, r => (.ok (random r).1, (random r).2)
  | .inRange lo hi, r =>
    match random_in_range lo hi r with
    | .ok p => (.ok p.1, p.2)
    | .error e => (.error e, r)
  | .stdNormal, r => (.ok (standard_normal r).1, (standard_normal r).2)

/-- Run a call sequence on a stream, collecting the sequence of outcomes and
the final state. -/
def run_calls : List Call → random_state → List (Except RandError ℚ) × random_state
  | [], r => ([], r)
  | c :: cs, r =>
    ((run_call c r).1 :: (run_calls cs (run_call c r).2).1,
      (run_calls cs (run_call c r).2).2)

/-- Construct a stream from a caller-supplied seed, reduced to 32 bits as the
`unsigned int` state word would be. -/
def mk_stream (seed : Nat) : random_state := ⟨seed % UINT32_MOD⟩

/-- A C parameter or return type relevant to the declared interface of
`random.h`: the types that actually occur (`double`, `random_state *`) and
the usual candidates for an error channel (`int` codes, out-pointers,
`void`). -/
inductive CType
  | double
  | double_ptr
  | c_int
  | c_int_ptr
  | void
  | random_state_ptr
  deriving DecidableEq

/-- A C function declaration: its name, parameter types in order, and return
type. -/
structure CFunDecl where
  name : String
  params : List CType
  ret : CType
  deriving DecidableEq

/-- The four function declarations of `random.h`, transcribed from the source:
`double random_within_magnitude(double, random_state *)`,
`double random(random_state *)`,
`double random_in_range(double, double, random_state *)`,
`double standard_normal(random_state *)`. -/
def random_h_decls : List CFunDecl :=
  [⟨"random_within_magnitude", [CType.double, CType.random_state_ptr], CType.double⟩,
   ⟨"random", [CType.random_state_ptr], CType.double⟩,
   ⟨"random_in_range", [CType.double, CType.double, CType.random_state_ptr], CType.double⟩,
   ⟨"standard_normal", [CType.random_state_ptr], CType.double⟩]

theorem pair_snd {α β : Type} (a : α) (b : β) : (a, b).2 = b := rfl

theorem random_state_eq (r : random_state) : (random r).2 = next_state r := rfl

theorem random_val_nonneg (r : random_state) : 0 ≤ (random r).1 := by
  unfold random
  positivity

theorem next_state_lt (r : random_state) : (next_state r).a < UINT32_MOD :=
  Nat.mod_lt _ (by norm_num [UINT32_MOD])

theorem random_val_lt_one (r : random_state) : (random r).1 < 1 := by
  unfold random
  rw [div_lt_one (by norm_num [UINT32_MOD])]
  exact_mod_cast next_state_lt r

theorem next_state_mod8 (r : random_state) :
    (next_state r).a % 8 = (5 * (r.a % 8) + 7) % 8 := by
  show ((1664525 * r.a + 1013904223) % UINT32_MOD) % 8 = _
  unfold UINT32_MOD
  omega

theorem next_state_ne (r : random_state) : (next_state r).a ≠ r.a := by
  intro h
  have h8 := next_state_mod8 r
  rw [h] at h8
  omega

/-- The action of the state update on residues modulo 8. -/
def g (t : Nat) : Nat := (5 * t + 7) % 8

theorem iterate_next_mod8 (n : Nat) (r : random_state) :
    (next_state^[n] r).a % 8 = g^[n] (r.a % 8) := by
  induction n generalizing r with
  | zero => rfl
  | succ n ih =>
    rw [Function.iterate_succ_apply, Function.iterate_succ_apply, ih]
    have h := next_state_mod8 r
    simp only [g]
    rw [h]

theorem draw_sum_state (n : Nat) (r : random_state) :
    (draw_sum n r).2 = next_state^[n] r := by
  induction n generalizing r with
  | zero => rfl
  | succ n ih =>
    rw [Function.iterate_succ_apply]
    conv_lhs => rw [draw_sum]
    simp only [random_state_eq]
    exact ih (next_state r)

theorem standard_normal_state (r : random_state) :
    (standard_normal r).2 = (draw_sum 12 r).2 := by
  unfold standard_normal
  exact pair_snd _ _

theorem g_iter12_ne : ∀ t, t < 8 → g^[12] t ≠ t := by decide

theorem standard_normal_state_ne (r : random_state) :
    (standard_normal r).2.a ≠ r.a := by
  intro h
  rw [standard_normal_state, draw_sum_state 12 r] at h
  have h8 := iterate_next_mod8 12 r
  rw [h] at h8
  exact g_iter12_ne (r.a % 8) (Nat.mod_lt _ (by norm_num)) h8.symm

/-- Claim C1: determinism — two streams independently constructed from the
same 32-bit seed value, run on the same sequence of calls to the four
sampling functions, produce identical sequences of outcomes and identical
final states. -/
theorem stream_determinism (s : Nat) (C : List Call) (r₁ r₂ : random_state)
    (h₁ : r₁ = mk_stream s) (h₂ : r₂ = mk_stream s) :
    run_calls C r₁ = run_calls C r₂ := by
  rw [h₁, h₂]

theorem stream_determinism_witness :
    run_calls [Call.unitUniform, Call.inRange 0 1] (mk_stream 42)
      = run_calls [Call.unitUniform, Call.inRange 0 1] (mk_stream 42) :=
  stream_determinism 42 [Call.unitUniform, Call.inRange 0 1]
    (mk_stream 42) (mk_stream 42) rfl rfl

/-- Claim C2: for every magnitude `m ≥ 0` and every stream state, the value
returned by `random_within_magnitude` lies in the closed interval `[-m, m]`. -/
theorem random_within_magnitude_bounds (m : ℚ) (r : random_state)
    (v : ℚ) (r' : random_state) (hm : 0 ≤ m)
    (h : random_within_magnitude m r = .ok (v, r')) :
    -m ≤ v ∧ v ≤ m := by
  unfold random_within_magnitude at h
  rw [if_neg (not_lt.mpr hm)] at h
  simp only [Except.ok.injEq, Prod.mk.injEq] at h
  obtain ⟨hv, -⟩ := h
  constructor <;>
    nlinarith [random_val_nonneg r, random_val_lt_one r,
      mul_nonneg hm (random_val_nonneg r),
      mul_nonneg hm (by linarith [random_val_lt_one r] : (0:ℚ) ≤ 1 - (random r).1)]

theorem random_within_magnitude_bounds_witness :
    -(1 : ℚ) ≤ -1133579425/2147483648 ∧ (-1133579425/2147483648 : ℚ) ≤ 1 :=
  random_within_magnitude_bounds 1 ⟨0⟩ (-1133579425/2147483648) ⟨1013904223⟩
    (by norm_num)
    (by norm_num [random_within_magnitude, random, next_state, UINT32_MOD])

/-- Claim C3: for every pair `low ≤ high` and every stream state, the value
returned by `random_in_range` lies in the interval `[low, high]`. -/
theorem random_in_range_bounds (low high : ℚ) (r : random_state)
    (v : ℚ) (r' : random_state) (hlh : low ≤ high)
    (h : random_in_range low high r = .ok (v, r')) :
    low ≤ v ∧ v ≤ high := by
  unfold random_in_range at h
  rw [if_neg (not_lt.mpr hlh)] at h
  simp only [Except.ok.injEq, Prod.mk.injEq] at h
  obtain ⟨hv, -⟩ := h
  constructor <;>
    nlinarith [random_val_nonneg r, random_val_lt_one r,
      mul_nonneg (sub_nonneg.mpr hlh) (random_val_nonneg r),
      mul_nonneg (sub_nonneg.mpr hlh)
        (by linarith [random_val_lt_one r] : (0:ℚ) ≤ 1 - (random r).1)]

theorem random_in_range_bounds_witness :
    (0 : ℚ) ≤ 1013904223/4294967296 ∧ (1013904223/4294967296 : ℚ) ≤ 1 :=
  random_in_range_bounds 0 1 ⟨0⟩ (1013904223/4294967296) ⟨1013904223⟩
    (by norm_num)
    (by norm_num [random_in_range, random, next_state, UINT32_MOD])

/-- Claim C4: for every stream state, the value returned by `random` lies in
the canonical unit interval; the documented convention here is `[0, 1)`,
which is contained in the interval with endpoints 0 and 1. -/
theorem random_unit_interval (r : random_state) :
    0 ≤ (random r).1 ∧ (random r).1 < 1 :=
  ⟨random_val_nonneg r, random_val_lt_one r⟩

/-- Claim C5: for every stream state, calling `random_in_range` with
`low > high` signals the `InvalidRange` error condition as an explicit
failure signal rather than producing a sample. -/
theorem random_in_range_invalid (low high : ℚ) (r : random_state)
    (h : high < low) :
    random_in_range low high r = .error .InvalidRange := by
  unfold random_in_range
  rw [if_pos h]

theorem random_in_range_invalid_witness :
    random_in_range 10 1 ⟨0⟩ = .error .InvalidRange :=
  random_in_range_invalid 10 1 ⟨0⟩ (by norm_num)

/-- Claim C6: for every stream state, calling `random_within_magnitude` with
a negative magnitude signals the `InvalidMagnitude` error condition as an
explicit failure signal. -/
theorem random_within_magnitude_invalid (m : ℚ) (r : random_state)
    (h : m < 0) :
    random_within_magnitude m r = .error .InvalidMagnitude := by
  unfold random_within_magnitude
  rw [if_pos h]

theorem random_within_magnitude_invalid_witness :
    random_within_magnitude (-1) ⟨0⟩ = .error .InvalidMagnitude :=
  random_within_magnitude_invalid (-1) ⟨0⟩ (by norm_num)

/-- Claim C7: totality over states — for every state word and in-domain
arguments each function returns a value; the only checked error conditions
are `low > high` in `random_in_range` and a negative magnitude in
`random_within_magnitude` (each succeeds exactly on its domain, for every
state), and `random` and `standard_normal` never signal an error. -/
theorem rng_totality (m low high : ℚ) (r : random_state) :
    ((∃ p, random_within_magnitude m r = .ok p) ↔ 0 ≤ m) ∧
    ((∃ p, random_in_range low high r = .ok p) ↔ low ≤ high) ∧
    (∃ v, (run_call Call.unitUniform r).1 = .ok v) ∧
    (∃ v, (run_call Call.stdNormal r).1 = .ok v) := by
  refine ⟨⟨?_, ?_⟩, ⟨?_, ?_⟩, ⟨(random r).1, rfl⟩, ⟨(standard_normal r).1, rfl⟩⟩
  · rintro ⟨p, hp⟩
    by_contra hm
    unfold random_within_magnitude at hp
    rw [if_pos (not_le.mp hm)] at hp
    exact absurd hp (by simp)
  · intro hm
    unfold random_within_magnitude
    rw [if_neg (not_lt.mpr hm)]
    exact ⟨_, rfl⟩
  · rintro ⟨p, hp⟩
    by_contra hlh
    unfold random_in_range at hp
    rw [if_pos (not_le.mp hlh)] at hp
    exact absurd hp (by simp)
  · intro hlh
    unfold random_in_range
    rw [if_neg (not_lt.mpr hlh)]
    exact ⟨_, rfl⟩

/-- Claim C8: degenerate range — for every stream state,
`random_in_range 5 5` returns exactly the value 5 (with the advanced
state). -/
theorem random_in_range_degenerate (r : random_state) :
    random_in_range 5 5 r = .ok (5, next_state r) := by
  unfold random_in_range
  rw [if_neg (lt_irrefl (5 : ℚ))]
  rw [random_state_eq]
  norm_num

/-- Claim C9: state mutation — for every stream state and in-domain
arguments, each of the four sampling calls leaves the 32-bit state word
different from its value before the call (the update rule has no fixed
point). -/
theorem state_mutation (r : random_state) (m low high : ℚ)
    (hm : 0 ≤ m) (hlh : low ≤ high) :
    (random r).2.a ≠ r.a ∧
    (run_call (Call.withinMagnitude m) r).2.a ≠ r.a ∧
    (run_call (Call.inRange low high) r).2.a ≠ r.a ∧
    (standard_normal r).2.a ≠ r.a := by
  have hok₁ : random_within_magnitude m r
      = .ok (m * (2 * (random r).1 - 1), (random r).2) := by
    unfold random_within_magnitude
    rw [if_neg (not_lt.mpr hm)]
  have hok₂ : random_in_range low high r
      = .ok (low + (high - low) * (random r).1, (random r).2) := by
    unfold random_in_range
    rw [if_neg (not_lt.mpr hlh)]
  have h₂ : (run_call (Call.withinMagnitude m) r).2 = (random r).2 := by
    simp only [run_call]
    rw [hok₁]
  have h₃ : (run_call (Call.inRange low high) r).2 = (random r).2 := by
    simp only [run_call]
    rw [hok₂]
  refine ⟨?_, ?_, ?_, ?_⟩
  · rw [random_state_eq]
    exact next_state_ne r
  · rw [h₂, random_state_eq]
    exact next_state_ne r
  · rw [h₃, random_state_eq]
    exact next_state_ne r
  · exact standard_normal_state_ne r

theorem state_mutation_witness :
    (random ⟨0⟩).2.a ≠ (⟨0⟩ : random_state).a ∧
    (run_call (Call.withinMagnitude 1) ⟨0⟩).2.a ≠ (⟨0⟩ : random_state).a ∧
    (run_call (Call.inRange 0 1) ⟨0⟩).2.a ≠ (⟨0⟩ : random_state).a ∧
    (standard_normal ⟨0⟩).2.a ≠ (⟨0⟩ : random_state).a :=
  state_mutation ⟨0⟩ 1 0 1 (by norm_num) (by norm_num)

/-- Claim C10: the declared interface of `random.h` has no out-of-band error
channel — every declared function returns a plain `double`, and its
parameters are only `double` arguments plus exactly one `random_state`
pointer (no error-code return, no error out-parameter). -/
theorem no_out_of_band_error_channel (d : CFunDecl) (hd : d ∈ random_h_decls) :
    d.ret = CType.double ∧
    (∀ p ∈ d.params, p = CType.double ∨ p = CType.random_state_ptr) ∧
    d.params.count CType.random_state_ptr = 1 := by
  have H : ∀ e ∈ random_h_decls,
      e.ret = CType.double ∧
      (∀ p ∈ e.params, p = CType.double ∨ p = CType.random_state_ptr) ∧
      e.params.count CType.random_state_ptr = 1 := by decide
  exact H d hd

theorem no_out_of_band_error_channel_witness :
    (⟨"random", [CType.random_state_ptr], CType.double⟩ : CFunDecl).ret
        = CType.double ∧
    (∀ p ∈ (⟨"random", [CType.random_state_ptr], CType.double⟩ : CFunDecl).params,
        p = CType.double ∨ p = CType.random_state_ptr) ∧
    (⟨"random", [CType.random_state_ptr], CType.double⟩ : CFunDecl).params.count
        CType.random_state_ptr = 1 :=
  no_out_of_band_error_channel
    ⟨"random", [CType.random_state_ptr], CType.double⟩ (by decide)

end Advector
